import Mathlib

/-!
Verification of the paginated sites-import pipeline of the
`gam_sites_toolkit` repository.

The development shallowly embeds the TypeScript sources:

* `app/data_handler.ts` — the query planner (`startSitesImport`,
  `getStatementsAndTotalResultsForSitesStatement`, `getResultSetSize`),
  the retrying fetch (`getSites`) and the sheet writer (`addSitesToSheet`).
* `app/assets/import_dialog.ts` and its failure-aware variant — the
  client-side batch fetch driver (`processStatementQueue`,
  `onSitesLoadedSuccess`, `onErrorLoadingSites`, `updateProgress`,
  `onAllSitesLoaded`, `onImportFinishedSuccess`).
* `app/app.ts` — the server entry points (`getSites`, `finishSitesImport`,
  `cancelSitesImport`, the app-level `startSitesImport`).

Remote services are modelled as oracles (pure functions supplied as
arguments); asynchronous completions of the Apps Script host are modelled
as an explicit event list consumed by a step function, so that reachable
states of the dialog's single-threaded event loop are the states
`run init events` for some event list.
-/

namespace GamSites

/-- A PQL statement: query text plus bound parameter values
(`gam_apps_script/typings/statement`). Bound values are opaque to the
toolkit; they are modelled as strings. -/
structure Statement where
  query : String
  values : List String
deriving DecidableEq, Repr

/-- A site record, with the fields read by `DataHandler.addSitesToSheet`
(`typings/ad_manager_api.ts`). Display-only fields are modelled as
strings; `childNetworkCode` and `disapprovalReasons` are optional
(the TypeScript code applies `?? ''` to them). -/
structure Site where
  id : Nat
  url : String
  childNetworkCode : Option String
  approvalStatus : String
  code : String
  approvalStatusDateTime : String
  disapprovalReasons : Option String
deriving DecidableEq, Repr

/-- Result of a `getSitesByStatement` remote call
(`StatementResult<Site>` / `SitesPage` in the sources). -/
structure SitesPage where
  totalResultSetSize : Nat
  startIndex : Nat
  results : List Site
deriving DecidableEq, Repr

/-- JS `String.prototype.includes` on character lists: does `pat` occur as
a contiguous substring? -/
def charsInclude (l pat : List Char) : Bool :=
  match l with
  | [] => pat.isEmpty
  | _ :: t => pat.isPrefixOf l || charsInclude t pat

/-- JS `String.prototype.includes`. -/
def strIncludes (s pat : String) : Bool :=
  charsInclude s.data pat.data

/-- JS `String.prototype.toLowerCase`, modelled as the per-character
lower-casing of the string (the ASCII case mapping, which covers PQL
query text). -/
def strToLower (s : String) : String :=
  String.mk (s.data.map Char.toLower)

/-- Result of a planner call: either the returned
`{statements, totalResults}` object or the message of the thrown error. -/
inductive PlanResult where
  | ok (statements : List Statement) (totalResults : Nat)
  | error (msg : String)
deriving DecidableEq, Repr

/-- Observable outcome of a planner call: its result, the
`getSitesByStatement` remote calls it issued (in order), and the
destination sheets it created (in order). -/
structure PlanOutcome where
  result : PlanResult
  calls : List Statement
  sheetsCreated : List String
deriving DecidableEq, Repr

/-- The count probe built by `DataHandler.getResultSetSize`: the original
query with `' LIMIT 1'` appended, carrying the original bound values. -/
def countProbe (statement : Statement) : Statement :=
  { query := statement.query ++ " LIMIT 1", values := statement.values }

/-- `DataHandler.getResultSetSize`: issues the count probe against the
site service and reads `totalResultSetSize`. Returns the size together
with the remote call issued. -/
def getResultSetSize (service : Statement → SitesPage) (statement : Statement) :
    Nat × List Statement :=
  ((service (countProbe statement)).totalResultSetSize, [countProbe statement])

/-- One iteration's statement in the planner's
`for (let i = 0; i < totalResults; i += batchSize)` loop:
`` `${statement.query} LIMIT ${batchSize} OFFSET ${i}` `` with the original
bound values. -/
def pageStatement (q : String) (values : List String) (batchSize i : Nat) : Statement :=
  { query := q ++ " LIMIT " ++ toString batchSize ++ " OFFSET " ++ toString i,
    values := values }

/-- The planner's statement-building loop, starting at index `i`, with
explicit fuel. Whenever `0 < batchSize`, fuel `totalResults` is enough for
the loop to run to completion (the loop body runs at most `totalResults`
times, since `i` grows by `batchSize ≥ 1` each iteration). -/
def buildStatementsFrom (q : String) (values : List String)
    (batchSize totalResults : Nat) : Nat → Nat → List Statement
  | _, 0 => []
  | i, fuel + 1 =>
    if i < totalResults then
      pageStatement q values batchSize i ::
        buildStatementsFrom q values batchSize totalResults (i + batchSize) fuel
    else []

/-- The statement list built by the planner's loop
`for (let i = 0; i < totalResults; i += batchSize)`. -/
def buildStatements (q : String) (values : List String)
    (batchSize totalResults : Nat) : List Statement :=
  buildStatementsFrom q values batchSize totalResults 0 totalResults

/-- The default `batchSize` parameter of both planner variants. -/
def defaultBatchSize : Nat := 100

/-- The default `maxResults` parameter of both planner variants. -/
def defaultMaxResults : Nat := 100000

/-- `DataHandler.startSitesImport` (single-call variant,
`data_handler.ts`): validates the query, issues the count probe, creates
the destination sheet named by `importId`, and builds the LIMIT/OFFSET
page statements with `totalResults = min(totalResultSetSize, maxResults)`. -/
def startSitesImport (service : Statement → SitesPage) (importId : String)
    (statement : Statement) (batchSize maxResults : Nat) : PlanOutcome :=
  let q := strToLower statement.query
  if strIncludes q "limit" || strIncludes q "offset" then
    { result := .error "Limit and offset are not supported",
      calls := [], sheetsCreated := [] }
  else
    let sizeAndCalls := getResultSetSize service statement
    let totalResults := min sizeAndCalls.1 maxResults
    { result := .ok (buildStatements statement.query statement.values batchSize totalResults)
        totalResults,
      calls := sizeAndCalls.2,
      sheetsCreated := [importId] }

/-- `DataHandler.getStatementsAndTotalResultsForSitesStatement`
(two-service variant, `data_handler.ts`): validates the query, issues the
count probe, throws `'No sites found'` when the probe reports zero
results, and otherwise builds the LIMIT/OFFSET page statements with
`totalResults = min(totalResultSetSize, maxResults)`. It creates no sheet
itself (the caller in `app.ts` does, after this returns). -/
def getStatementsAndTotalResultsForSitesStatement (service : Statement → SitesPage)
    (statement : Statement) (batchSize maxResults : Nat) : PlanOutcome :=
  let q := strToLower statement.query
  if strIncludes q "limit" || strIncludes q "offset" then
    { result := .error "Limit and offset are not supported",
      calls := [], sheetsCreated := [] }
  else
    let sizeAndCalls := getResultSetSize service statement
    if sizeAndCalls.1 = 0 then
      { result := .error "No sites found", calls := sizeAndCalls.2, sheetsCreated := [] }
    else
      let totalResults := min sizeAndCalls.1 maxResults
      { result := .ok (buildStatements statement.query statement.values batchSize totalResults)
          totalResults,
        calls := sizeAndCalls.2,
        sheetsCreated := [] }

/-- Ceiling-division step: for positive `d` and `b`, one more page is
needed than for `d - b` remaining results. -/
theorem ceilPages_succ (d b : Nat) (hb : 0 < b) (hd : 0 < d) :
    (d + b - 1) / b = (d - b + b - 1) / b + 1 := by
  rcases le_or_lt b d with h | h
  · have hrw : d + b - 1 = (d - b + b - 1) + b := by omega
    rw [hrw, Nat.add_div_right _ hb]
  · have h1 : d - b = 0 := by omega
    have h2 : (d + b - 1) / b = 1 := by
      apply Nat.div_eq_of_lt_le <;> omega
    have h3 : (0 + b - 1) / b = 0 := by
      apply Nat.div_eq_of_lt
      omega
    rw [h1, h2, h3]

/-- The planner loop starting at index `i` with enough fuel produces one
page statement per `batchSize` step, `⌈(totalResults - i) / batchSize⌉`
of them in total. -/
theorem buildStatementsFrom_spec (q : String) (values : List String) (b t : Nat)
    (hb : 0 < b) :
    ∀ fuel i, t ≤ i + fuel →
      buildStatementsFrom q values b t i fuel =
        (List.range ((t - i + b - 1) / b)).map
          (fun k => pageStatement q values b (i + k * b)) := by
  intro fuel
  induction fuel with
  | zero =>
    intro i hi
    have h0 : t - i = 0 := by omega
    have h1 : (b - 1) / b = 0 := by
      apply Nat.div_eq_of_lt
      omega
    simp [buildStatementsFrom, h0, h1]
  | succ fuel ih =>
    intro i hi
    by_cases hlt : i < t
    · have hrec := ih (i + b) (by omega)
      have hd : (t - i + b - 1) / b = (t - (i + b) + b - 1) / b + 1 := by
        have := ceilPages_succ (t - i) b hb (by omega)
        have hsub : t - i - b = t - (i + b) := by omega
        rw [hsub] at this
        exact this
      rw [buildStatementsFrom, if_pos hlt, hrec, hd, List.range_succ_eq_map]
      simp only [List.map_cons, List.map_map]
      congr 1
      · congr 1
        omega
      · apply List.map_congr_left
        intro k _
        simp only [Function.comp_apply]
        congr 1
        rw [Nat.succ_mul]
        omega
    · have h0 : t - i = 0 := by omega
      have h1 : (b - 1) / b = 0 := by
        apply Nat.div_eq_of_lt
        omega
      rw [buildStatementsFrom, if_neg hlt]
      simp [h0, h1]

/-- The planner's loop builds exactly `⌈totalResults / batchSize⌉`
statements, the `k`-th carrying `OFFSET k * batchSize`. -/
theorem buildStatements_eq (q : String) (values : List String) (b t : Nat)
    (hb : 0 < b) :
    buildStatements q values b t =
      (List.range ((t + b - 1) / b)).map
        (fun k => pageStatement q values b (k * b)) := by
  have h := buildStatementsFrom_spec q values b t hb t 0 (by omega)
  simpa using h

/-- The app-level `startSitesImport` of `app.ts`, modelled up to its
planner and destination-sheet effects: it plans via
`getStatementsAndTotalResultsForSitesStatement` (with the default
`batchSize = 100` and `maxResults = 100000`, and no bound values); a
planner error propagates before any sheet is created; on success, only
after the user confirms, it creates the destination sheet named
`sheetTitle`. -/
def appStartSitesImport (service : Statement → SitesPage) (query : String)
    (sheetTitle : String) (userConfirmed : Bool) : PlanOutcome :=
  let plan := getStatementsAndTotalResultsForSitesStatement service
    { query := query, values := [] } defaultBatchSize defaultMaxResults
  match plan.result with
  | .error msg => { result := .error msg, calls := plan.calls, sheetsCreated := [] }
  | .ok stmts total =>
    if userConfirmed then
      { result := .ok stmts total, calls := plan.calls, sheetsCreated := [sheetTitle] }
    else
      { result := .ok stmts total, calls := plan.calls, sheetsCreated := [] }

/-- A service oracle reporting zero results for every statement. -/
def zeroService : Statement → SitesPage :=
  fun _ => { totalResultSetSize := 0, startIndex := 0, results := [] }

/-- A service oracle reporting 250 results for every statement. -/
def service250 : Statement → SitesPage :=
  fun _ => { totalResultSetSize := 250, startIndex := 0, results := [] }

/-- C1: counterexample to the claim as stated. For the two-service
planner variant `getStatementsAndTotalResultsForSitesStatement`, a clean
filter with `batchSize = 100 > 0` and `maxResults = 1000` whose count
probe reports `trueSize = 0` does not return
`ceil(min(trueSize, maxResults) / batchSize) = 0` statements with
`totalResults = min(0, 1000) = 0`: it throws `'No sites found'` instead. -/
theorem claim_C1_counterexample :
    (getStatementsAndTotalResultsForSitesStatement zeroService
        { query := "WHERE id = 7", values := [] } 100 1000).result =
      PlanResult.error "No sites found" ∧
    (getStatementsAndTotalResultsForSitesStatement zeroService
        { query := "WHERE id = 7", values := [] } 100 1000).result ≠
      PlanResult.ok [] (min 0 1000) := by
  constructor
  · decide
  · decide

/-- C1 (amended): for every filter whose lower-cased query contains
neither `limit` nor `offset`, every `batchSize > 0` and every
`maxResults`, both planner variants issue exactly one count probe — the
original query with `' LIMIT 1'` appended, bound values unchanged — and,
with `totalResults = min(trueSize, maxResults)`, return exactly
`⌈totalResults / batchSize⌉` statements whose `k`-th element appends
`'LIMIT batchSize OFFSET k*batchSize'` to the original query with the
original bound values unchanged; the single-call variant
`startSitesImport` does so for every probed size, while the two-service
variant `getStatementsAndTotalResultsForSitesStatement` does so whenever
the probed size is positive (at zero it throws `'No sites found'`
instead). -/
theorem claim_C1 (service : Statement → SitesPage) (importId : String)
    (st : Statement) (b m : Nat) (hb : 0 < b)
    (hq : strIncludes (strToLower st.query) "limit" = false)
    (ho : strIncludes (strToLower st.query) "offset" = false) :
    (startSitesImport service importId st b m).calls = [countProbe st] ∧
    (startSitesImport service importId st b m).result =
      PlanResult.ok
        ((List.range ((min (service (countProbe st)).totalResultSetSize m + b - 1) / b)).map
          (fun k => pageStatement st.query st.values b (k * b)))
        (min (service (countProbe st)).totalResultSetSize m) ∧
    (getStatementsAndTotalResultsForSitesStatement service st b m).calls = [countProbe st] ∧
    (0 < (service (countProbe st)).totalResultSetSize →
      (getStatementsAndTotalResultsForSitesStatement service st b m).result =
        PlanResult.ok
          ((List.range ((min (service (countProbe st)).totalResultSetSize m + b - 1) / b)).map
            (fun k => pageStatement st.query st.values b (k * b)))
          (min (service (countProbe st)).totalResultSetSize m)) := by
  have hcond :
      (strIncludes (strToLower st.query) "limit" || strIncludes (strToLower st.query) "offset") = false := by
    rw [hq, ho]
    rfl
  refine ⟨?_, ?_, ?_, ?_⟩
  · simp [startSitesImport, hcond, getResultSetSize]
  · simp [startSitesImport, hcond, getResultSetSize,
      buildStatements_eq st.query st.values b _ hb]
  · by_cases h0 : (service (countProbe st)).totalResultSetSize = 0
    · simp [getStatementsAndTotalResultsForSitesStatement, hcond, getResultSetSize, h0]
    · simp [getStatementsAndTotalResultsForSitesStatement, hcond, getResultSetSize, h0]
  · intro hpos
    have h0 : ¬ (service (countProbe st)).totalResultSetSize = 0 := by omega
    simp [getStatementsAndTotalResultsForSitesStatement, hcond, getResultSetSize, h0,
      buildStatements_eq st.query st.values b _ hb]

/-- C1 witness: the amended claim evaluated at a concrete clean filter,
`batchSize = 100`, `maxResults = 100000`, and a service reporting 250
results: one probe `'WHERE id = 7 LIMIT 1'`, and three pages at offsets
0, 100, 200 with `totalResults = 250`, in both planner variants. -/
theorem claim_C1_witness :
    (startSitesImport service250 "import-1"
        { query := "WHERE id = 7", values := ["v"] } 100 100000).calls =
      [{ query := "WHERE id = 7 LIMIT 1", values := ["v"] }] ∧
    (startSitesImport service250 "import-1"
        { query := "WHERE id = 7", values := ["v"] } 100 100000).result =
      PlanResult.ok
        [ { query := "WHERE id = 7 LIMIT 100 OFFSET 0", values := ["v"] },
          { query := "WHERE id = 7 LIMIT 100 OFFSET 100", values := ["v"] },
          { query := "WHERE id = 7 LIMIT 100 OFFSET 200", values := ["v"] } ] 250 ∧
    (getStatementsAndTotalResultsForSitesStatement service250
        { query := "WHERE id = 7", values := ["v"] } 100 100000).result =
      PlanResult.ok
        [ { query := "WHERE id = 7 LIMIT 100 OFFSET 0", values := ["v"] },
          { query := "WHERE id = 7 LIMIT 100 OFFSET 100", values := ["v"] },
          { query := "WHERE id = 7 LIMIT 100 OFFSET 200", values := ["v"] } ] 250 := by
  have h := claim_C1 service250 "import-1" { query := "WHERE id = 7", values := ["v"] }
    100 100000 (by decide) (by decide) (by decide)
  exact ⟨h.1.trans (by decide), h.2.1.trans (by decide),
    (h.2.2.2 (by decide)).trans (by decide)⟩

/-- C2: for every filter whose lower-cased query contains the substring
`limit` or the substring `offset`, both planner variants throw
`'Limit and offset are not supported'`, issue no remote call (the count
probe is never issued), and create no sheet. -/
theorem claim_C2 (service : Statement → SitesPage) (importId : String)
    (st : Statement) (b m : Nat)
    (h : strIncludes (strToLower st.query) "limit" = true ∨
      strIncludes (strToLower st.query) "offset" = true) :
    startSitesImport service importId st b m =
      { result := .error "Limit and offset are not supported",
        calls := [], sheetsCreated := [] } ∧
    getStatementsAndTotalResultsForSitesStatement service st b m =
      { result := .error "Limit and offset are not supported",
        calls := [], sheetsCreated := [] } := by
  have hcond :
      (strIncludes (strToLower st.query) "limit" || strIncludes (strToLower st.query) "offset") = true := by
    rcases h with h | h <;> simp [h]
  constructor
  · simp [startSitesImport, hcond]
  · simp [getStatementsAndTotalResultsForSitesStatement, hcond]

/-- C2 witness: a filter carrying a `LIMIT` clause is rejected by both
planner variants with no remote call issued. -/
theorem claim_C2_witness :
    startSitesImport zeroService "import-1"
        { query := "WHERE id = 7 LIMIT 5", values := [] } 100 1000 =
      { result := .error "Limit and offset are not supported",
        calls := [], sheetsCreated := [] } ∧
    getStatementsAndTotalResultsForSitesStatement zeroService
        { query := "WHERE id = 7 LIMIT 5", values := [] } 100 1000 =
      { result := .error "Limit and offset are not supported",
        calls := [], sheetsCreated := [] } :=
  claim_C2 zeroService "import-1" { query := "WHERE id = 7 LIMIT 5", values := [] }
    100 1000 (Or.inl (by decide))

/-- C7: when the count probe reports zero results, the two-service
variant `getStatementsAndTotalResultsForSitesStatement` throws
`'No sites found'` — and in the `app.ts` caller this error propagates
before any destination sheet is created — while the single-call variant
`startSitesImport` succeeds, still creates the destination sheet, and
returns zero statements with `totalResults = 0`. -/
theorem claim_C7 (service : Statement → SitesPage) (importId : String)
    (st : Statement) (b m : Nat) (sheetTitle : String) (confirmed : Bool)
    (hq : strIncludes (strToLower st.query) "limit" = false)
    (ho : strIncludes (strToLower st.query) "offset" = false)
    (h0 : (service (countProbe st)).totalResultSetSize = 0)
    (h0app : (service (countProbe { query := st.query, values := [] })).totalResultSetSize = 0) :
    getStatementsAndTotalResultsForSitesStatement service st b m =
      { result := .error "No sites found", calls := [countProbe st], sheetsCreated := [] } ∧
    (appStartSitesImport service st.query sheetTitle confirmed).result =
      PlanResult.error "No sites found" ∧
    (appStartSitesImport service st.query sheetTitle confirmed).sheetsCreated = [] ∧
    startSitesImport service importId st b m =
      { result := .ok [] 0, calls := [countProbe st], sheetsCreated := [importId] } := by
  have hcond :
      (strIncludes (strToLower st.query) "limit" || strIncludes (strToLower st.query) "offset") = false := by
    rw [hq, ho]
    rfl
  have happ :
      getStatementsAndTotalResultsForSitesStatement service
          { query := st.query, values := [] } defaultBatchSize defaultMaxResults =
        { result := .error "No sites found",
          calls := [countProbe { query := st.query, values := [] }], sheetsCreated := [] } := by
    simp [getStatementsAndTotalResultsForSitesStatement, hcond, getResultSetSize, h0app]
  refine ⟨?_, ?_, ?_, ?_⟩
  · simp [getStatementsAndTotalResultsForSitesStatement, hcond, getResultSetSize, h0]
  · simp [appStartSitesImport, happ]
  · simp [appStartSitesImport, happ]
  · simp [startSitesImport, hcond, getResultSetSize, h0, buildStatements, buildStatementsFrom]

/-- C7 witness: the zero-results behaviour evaluated at a concrete clean
filter against the zero-reporting service. -/
theorem claim_C7_witness :
    getStatementsAndTotalResultsForSitesStatement zeroService
        { query := "WHERE id = 7", values := [] } 100 1000 =
      { result := .error "No sites found",
        calls := [{ query := "WHERE id = 7 LIMIT 1", values := [] }],
        sheetsCreated := [] } ∧
    (appStartSitesImport zeroService "WHERE id = 7" "Sites" true).sheetsCreated = [] ∧
    startSitesImport zeroService "import-1"
        { query := "WHERE id = 7", values := [] } 100 1000 =
      { result := .ok [] 0, calls := [{ query := "WHERE id = 7 LIMIT 1", values := [] }],
        sheetsCreated := ["import-1"] } := by
  have h := claim_C7 zeroService "import-1" { query := "WHERE id = 7", values := [] }
    100 1000 "Sites" true (by decide) (by decide) (by decide) (by decide)
  exact ⟨h.1.trans (by decide), h.2.2.1, h.2.2.2.trans (by decide)⟩

/-- C10: a filter whose query contains no LIMIT or OFFSET pagination
clause, but whose text contains the letters `limit` inside the longer
word `unlimited`, is nevertheless rejected by both planner variants with
`'Limit and offset are not supported'` and no remote call: the
precondition check is a bare case-insensitive substring test, not a
pagination-clause parser. -/
theorem claim_C10 (service : Statement → SitesPage) (importId : String) :
    strIncludes (strToLower "WHERE url = unlimited.example.com") " limit" = false ∧
    strIncludes (strToLower "WHERE url = unlimited.example.com") "offset" = false ∧
    strIncludes (strToLower "WHERE url = unlimited.example.com") "limit" = true ∧
    (startSitesImport service importId
        { query := "WHERE url = unlimited.example.com", values := [] } 100 100000).result =
      PlanResult.error "Limit and offset are not supported" ∧
    (startSitesImport service importId
        { query := "WHERE url = unlimited.example.com", values := [] } 100 100000).calls = [] ∧
    (getStatementsAndTotalResultsForSitesStatement service
        { query := "WHERE url = unlimited.example.com", values := [] } 100 100000).result =
      PlanResult.error "Limit and offset are not supported" ∧
    (getStatementsAndTotalResultsForSitesStatement service
        { query := "WHERE url = unlimited.example.com", values := [] } 100 100000).calls = [] := by
  have hcond :
      (strIncludes (strToLower "WHERE url = unlimited.example.com") "limit" ||
        strIncludes (strToLower "WHERE url = unlimited.example.com") "offset") = true := by decide
  refine ⟨by decide, by decide, by decide, ?_, ?_, ?_, ?_⟩ <;>
    simp [startSitesImport, getStatementsAndTotalResultsForSitesStatement, hcond]

/-- Errors thrown by the remote `performOperation` call: an
`AdManagerServerFault` (the retryable transient fault) or any other
error. -/
inductive RemoteError where
  | adManagerServerFault (msg : String)
  | otherError (msg : String)
deriving DecidableEq, Repr

/-- Whether an attempt outcome is an `AdManagerServerFault` (the
`e instanceof AdManagerServerFault` test in `getSites`' catch block). -/
def isServerFault : Except RemoteError SitesPage → Bool
  | .error (.adManagerServerFault _) => true
  | _ => false

/-- The try/catch/retry recursion of `DataHandler.getSites`. The oracle
gives the outcome of the `k`-th `performOperation` attempt (0-based); the
function returns the final outcome together with the index one past the
last attempt (so its second component is the total number of attempts
when started at `k = 0`). On an `AdManagerServerFault` with a positive
remaining budget it re-invokes itself immediately with `retries - 1`; any
other error, or an exhausted budget, re-raises. -/
def getSitesFrom (oracle : Nat → Except RemoteError SitesPage) :
    Nat → Nat → Except RemoteError SitesPage × Nat
  | k, retries =>
    match oracle k, retries with
    | .ok page, _ => (.ok page, k + 1)
    | .error (.adManagerServerFault _), r + 1 => getSitesFrom oracle (k + 1) r
    | .error e, _ => (.error e, k + 1)

/-- `DataHandler.getSites` (the remote-fetch part, shared by both
variants): attempts start at index 0 with the given retry budget. -/
def getSites (oracle : Nat → Except RemoteError SitesPage) (retries : Nat) :
    Except RemoteError SitesPage × Nat :=
  getSitesFrom oracle 0 retries

/-- The default `retries` parameter of `DataHandler.getSites`. -/
def defaultRetries : Nat := 3

/-- An attempt outcome is a server fault exactly when it is an error
carrying `adManagerServerFault`. -/
theorem isServerFault_iff (x : Except RemoteError SitesPage) :
    isServerFault x = true ↔ ∃ m, x = .error (.adManagerServerFault m) := by
  cases x with
  | ok p => simp [isServerFault]
  | error e => cases e <;> simp [isServerFault]

/-- Unfolding of the retry loop at a successful attempt. -/
theorem getSitesFrom_ok (oracle : Nat → Except RemoteError SitesPage)
    {k : Nat} {page : SitesPage} (h : oracle k = .ok page) (r : Nat) :
    getSitesFrom oracle k r = (.ok page, k + 1) := by
  cases r <;> simp [getSitesFrom, h]

/-- Unfolding of the retry loop at a transient fault with budget left:
the call is immediately re-issued with one fewer retry. -/
theorem getSitesFrom_fault_succ (oracle : Nat → Except RemoteError SitesPage)
    {k : Nat} {m : String}
    (h : oracle k = .error (.adManagerServerFault m)) (r : Nat) :
    getSitesFrom oracle k (r + 1) = getSitesFrom oracle (k + 1) r := by
  simp [getSitesFrom, h]

/-- Unfolding of the retry loop at a transient fault with the budget
exhausted: the fault is re-raised. -/
theorem getSitesFrom_fault_zero (oracle : Nat → Except RemoteError SitesPage)
    {k : Nat} {m : String}
    (h : oracle k = .error (.adManagerServerFault m)) :
    getSitesFrom oracle k 0 = (.error (.adManagerServerFault m), k + 1) := by
  simp [getSitesFrom, h]

/-- Unfolding of the retry loop at a non-retryable error: it is
re-raised immediately, whatever the budget. -/
theorem getSitesFrom_other (oracle : Nat → Except RemoteError SitesPage)
    {k : Nat} {m : String}
    (h : oracle k = .error (.otherError m)) (r : Nat) :
    getSitesFrom oracle k r = (.error (.otherError m), k + 1) := by
  cases r <;> simp [getSitesFrom, h]

/-- The retry loop stops at the first attempt that is not a server
fault, returning that attempt's outcome, provided the budget covers the
preceding faults. -/
theorem getSitesFrom_stops (oracle : Nat → Except RemoteError SitesPage) :
    ∀ j n k, j ≤ n → (∀ i, i < j → isServerFault (oracle (k + i)) = true) →
      isServerFault (oracle (k + j)) = false →
      getSitesFrom oracle k n = (oracle (k + j), k + j + 1) := by
  intro j
  induction j with
  | zero =>
    intro n k _ _ hstop
    rw [Nat.add_zero] at hstop ⊢
    cases h : oracle k with
    | ok page => rw [getSitesFrom_ok oracle h]
    | error e =>
      cases e with
      | adManagerServerFault m => rw [h, isServerFault] at hstop; cases hstop
      | otherError m => rw [getSitesFrom_other oracle h]
  | succ j ih =>
    intro n k hj hfaults hstop
    have h0 : isServerFault (oracle (k + 0)) = true := hfaults 0 (by omega)
    rw [Nat.add_zero] at h0
    obtain ⟨m, hm⟩ := (isServerFault_iff (oracle k)).mp h0
    obtain ⟨n2, rfl⟩ : ∃ n2, n = n2 + 1 := ⟨n - 1, by omega⟩
    have hrec := ih n2 (k + 1) (by omega)
      (fun i hi => by
        have := hfaults (i + 1) (by omega)
        rw [show k + (i + 1) = k + 1 + i by omega] at this
        exact this)
      (by rw [show k + 1 + j = k + (j + 1) by omega]; exact hstop)
    rw [getSitesFrom_fault_succ oracle hm, hrec]
    rw [show k + 1 + j = k + (j + 1) by omega]

/-- When every attempt within the budget is a server fault, the loop
re-raises the last attempt's fault after `retries + 1` attempts. -/
theorem getSitesFrom_exhausts (oracle : Nat → Except RemoteError SitesPage) :
    ∀ n k, (∀ i, i ≤ n → isServerFault (oracle (k + i)) = true) →
      getSitesFrom oracle k n = (oracle (k + n), k + n + 1) := by
  intro n
  induction n with
  | zero =>
    intro k hfaults
    have h0 := hfaults 0 (by omega)
    rw [Nat.add_zero] at h0
    obtain ⟨m, hm⟩ := (isServerFault_iff (oracle k)).mp h0
    rw [Nat.add_zero, getSitesFrom_fault_zero oracle hm, hm]
  | succ n ih =>
    intro k hfaults
    have h0 := hfaults 0 (by omega)
    rw [Nat.add_zero] at h0
    obtain ⟨m, hm⟩ := (isServerFault_iff (oracle k)).mp h0
    have hrec := ih (k + 1)
      (fun i hi => by
        have := hfaults (i + 1) (by omega)
        rw [show k + (i + 1) = k + 1 + i by omega] at this
        exact this)
    rw [getSitesFrom_fault_succ oracle hm, hrec]
    rw [show k + 1 + n = k + (n + 1) by omega]

/-- Attempts performed by the loop are bounded by one plus the budget. -/
theorem getSitesFrom_attempts (oracle : Nat → Except RemoteError SitesPage) :
    ∀ n k, (getSitesFrom oracle k n).2 ≤ k + n + 1 := by
  intro n
  induction n with
  | zero =>
    intro k
    cases h : oracle k with
    | ok page => rw [getSitesFrom_ok oracle h]
    | error e =>
      cases e with
      | adManagerServerFault m => rw [getSitesFrom_fault_zero oracle h]
      | otherError m => rw [getSitesFrom_other oracle h]
  | succ n ih =>
    intro k
    cases h : oracle k with
    | ok page =>
      rw [getSitesFrom_ok oracle h]
      simp
    | error e =>
      cases e with
      | adManagerServerFault m =>
        rw [getSitesFrom_fault_succ oracle h]
        have := ih (k + 1)
        omega
      | otherError m =>
        rw [getSitesFrom_other oracle h]
        simp

/-- C6: for every oracle and retry budget `n`, `DataHandler.getSites`
performs at most `n + 1` attempts; it retries exactly while attempts
throw `AdManagerServerFault` and budget remains, returning the first
non-fault attempt's outcome immediately (so a success or any
non-`AdManagerServerFault` error at attempt `j ≤ n` is returned after
exactly `j + 1` attempts, with no retry of a non-fault error); once the
budget is exhausted the last fault is re-raised after `n + 1` attempts.
The default budget is 3. -/
theorem claim_C6 :
    (∀ oracle n, (getSites oracle n).2 ≤ n + 1) ∧
    (∀ oracle n j, j ≤ n → (∀ i, i < j → isServerFault (oracle i) = true) →
      isServerFault (oracle j) = false →
      getSites oracle n = (oracle j, j + 1)) ∧
    (∀ oracle n, (∀ i, i ≤ n → isServerFault (oracle i) = true) →
      getSites oracle n = (oracle n, n + 1)) ∧
    defaultRetries = 3 := by
  refine ⟨?_, ?_, ?_, rfl⟩
  · intro oracle n
    have := getSitesFrom_attempts oracle n 0
    simpa [getSites] using this
  · intro oracle n j hj hfaults hstop
    have := getSitesFrom_stops oracle j n 0 hj
      (fun i hi => by simpa using hfaults i hi) (by simpa using hstop)
    simpa [getSites] using this
  · intro oracle n hfaults
    have := getSitesFrom_exhausts oracle n 0 (fun i hi => by simpa using hfaults i hi)
    simpa [getSites] using this

/-- An oracle whose first attempt throws a transient fault and whose
later attempts succeed. -/
def faultThenOk : Nat → Except RemoteError SitesPage
  | 0 => .error (.adManagerServerFault "transient")
  | _ => .ok { totalResultSetSize := 1, startIndex := 0, results := [] }

/-- An oracle that always throws a non-retryable error. -/
def alwaysOtherError : Nat → Except RemoteError SitesPage :=
  fun _ => .error (.otherError "bad request")

/-- C6 witness: with the default budget of 3, one transient fault is
retried and the second attempt's success is returned after 2 attempts,
while a non-`AdManagerServerFault` error is re-raised after a single
attempt. -/
theorem claim_C6_witness :
    getSites faultThenOk defaultRetries =
      (.ok { totalResultSetSize := 1, startIndex := 0, results := [] }, 2) ∧
    getSites alwaysOtherError defaultRetries =
      (.error (.otherError "bad request"), 1) := by
  constructor
  · have h := claim_C6.2.1 faultThenOk defaultRetries 1 (by decide)
      (fun i hi => by
        have : i = 0 := by omega
        subst this
        decide)
      (by decide)
    exact h.trans rfl
  · have h := claim_C6.2.1 alwaysOtherError defaultRetries 0 (by decide)
      (fun i hi => absurd hi (by omega))
      (by decide)
    exact h.trans rfl

/-- A destination sheet: a partial map from 1-based row numbers to rows
of cell values. -/
def Sheet : Type := Nat → Option (List String)

/-- The display row built for one site by `DataHandler.addSitesToSheet`:
`[id, url, childNetworkCode ?? '', approvalStatus, code,
approvalStatusDateTime, disapprovalReasons ?? '']`. -/
def siteRow (site : Site) : List String :=
  [toString site.id, site.url, site.childNetworkCode.getD "",
   site.approvalStatus, site.code, site.approvalStatusDateTime,
   site.disapprovalReasons.getD ""]

/-- `getRange(row, 1, rows.length, width).setValues(rows)`: writes the
block of rows starting at row `row`, leaving every other row of the sheet
unchanged. -/
def setRows (sheet : Sheet) (row : Nat) (rows : List (List String)) : Sheet :=
  fun r => if row ≤ r ∧ r < row + rows.length then rows[r - row]? else sheet r

/-- `DataHandler.addSitesToSheet`: maps the sites to display rows and
writes them as one block starting at `row`. -/
def addSitesToSheet (sheet : Sheet) (sites : List Site) (row : Nat) : Sheet :=
  setRows sheet row (sites.map siteRow)

/-- The success path of the single-call variant of `DataHandler.getSites`
(and of `app.ts` `getSites`): writes the page's results at row
`startIndex + 2` — one past the header row, in 1-based coordinates — and
returns the page's record count. -/
def writeSitesPage (sheet : Sheet) (page : SitesPage) : Sheet × Nat :=
  (addSitesToSheet sheet page.results (page.startIndex + 2), page.results.length)

/-- One page completion processed end to end: the sink write performed by
the server-side `getSites`, together with the cumulative retrieved
counter update of the client's `onSitesLoadedSuccess`
(`sitesLoaded += sitesLoadedInBatch`). -/
def processPage (acc : Sheet × Nat) (page : SitesPage) : Sheet × Nat :=
  ((writeSitesPage acc.1 page).1, acc.2 + (writeSitesPage acc.1 page).2)

/-- Two block writes at disjoint row ranges commute. -/
theorem setRows_comm (sheet : Sheet) (r1 r2 : Nat)
    (rows1 rows2 : List (List String))
    (hd : r1 + rows1.length ≤ r2 ∨ r2 + rows2.length ≤ r1) :
    setRows (setRows sheet r1 rows1) r2 rows2 =
      setRows (setRows sheet r2 rows2) r1 rows1 := by
  funext r
  simp only [setRows]
  by_cases h1 : r1 ≤ r ∧ r < r1 + rows1.length <;>
    by_cases h2 : r2 ≤ r ∧ r < r2 + rows2.length <;>
    simp [h1, h2] <;>
    omega

/-- C8: for every pair of successfully fetched pages, the sink rows
written for a page depend only on that page's own returned `startIndex`
(its block starts at row `startIndex + 2`, just past the header row, and
no row outside the block changes); the cumulative retrieved counter after
both completions is the sum of the two record counts in either completion
order; and, the two pages' row blocks being disjoint, the final sheet and
counter are identical whichever page's completion is processed first. -/
theorem claim_C8 (sheet : Sheet) (loaded : Nat) (p q : SitesPage)
    (hdisj : p.startIndex + 2 + p.results.length ≤ q.startIndex + 2 ∨
      q.startIndex + 2 + q.results.length ≤ p.startIndex + 2) :
    (∀ r, r < p.startIndex + 2 ∨ p.startIndex + 2 + p.results.length ≤ r →
      (writeSitesPage sheet p).1 r = sheet r) ∧
    (∀ r, p.startIndex + 2 ≤ r → r < p.startIndex + 2 + p.results.length →
      (writeSitesPage sheet p).1 r = (p.results.map siteRow)[r - (p.startIndex + 2)]?) ∧
    (processPage (processPage (sheet, loaded) p) q).2 =
      loaded + p.results.length + q.results.length ∧
    (processPage (processPage (sheet, loaded) q) p).2 =
      loaded + q.results.length + p.results.length ∧
    processPage (processPage (sheet, loaded) p) q =
      processPage (processPage (sheet, loaded) q) p := by
  refine ⟨?_, ?_, ?_, ?_, ?_⟩
  · intro r hr
    simp only [writeSitesPage, addSitesToSheet, setRows]
    rw [if_neg]
    simp only [List.length_map]
    omega
  · intro r h1 h2
    simp only [writeSitesPage, addSitesToSheet, setRows]
    rw [if_pos]
    constructor
    · exact h1
    · simpa using h2
  · simp [processPage, writeSitesPage]
  · simp [processPage, writeSitesPage]
  · have hsheets :
        setRows (setRows sheet (p.startIndex + 2) (p.results.map siteRow))
            (q.startIndex + 2) (q.results.map siteRow) =
          setRows (setRows sheet (q.startIndex + 2) (q.results.map siteRow))
            (p.startIndex + 2) (p.results.map siteRow) := by
      apply setRows_comm
      simp only [List.length_map]
      exact hdisj
    rw [Prod.ext_iff]
    constructor
    · simpa [processPage, writeSitesPage, addSitesToSheet] using hsheets
    · simp [processPage, writeSitesPage]
      omega

/-- A page of two sites at start index 0, as returned for the first
planner page. -/
def pageAt0 : SitesPage :=
  { totalResultSetSize := 5, startIndex := 0,
    results :=
      [ { id := 1, url := "a.example", childNetworkCode := none,
          approvalStatus := "APPROVED", code := "c1",
          approvalStatusDateTime := "t1", disapprovalReasons := none },
        { id := 2, url := "b.example", childNetworkCode := some "123",
          approvalStatus := "DRAFT", code := "c2",
          approvalStatusDateTime := "t2", disapprovalReasons := some "spam" } ] }

/-- A page of one site at start index 100, as returned for the second
planner page. -/
def pageAt100 : SitesPage :=
  { totalResultSetSize := 5, startIndex := 100,
    results :=
      [ { id := 3, url := "c.example", childNetworkCode := none,
          approvalStatus := "APPROVED", code := "c3",
          approvalStatusDateTime := "t3", disapprovalReasons := none } ] }

/-- The empty destination sheet. -/
def emptySheet : Sheet := fun _ => none

/-- C8 witness: the out-of-order completion property evaluated at two
concrete pages with disjoint row blocks at start indices 0 and 100. -/
theorem claim_C8_witness :
    processPage (processPage (emptySheet, 0) pageAt0) pageAt100 =
      processPage (processPage (emptySheet, 0) pageAt100) pageAt0 ∧
    (processPage (processPage (emptySheet, 0) pageAt0) pageAt100).2 = 0 + 2 + 1 := by
  have h := claim_C8 emptySheet 0 pageAt0 pageAt100 (by left; decide)
  exact ⟨h.2.2.2.2, h.2.2.1.trans (by decide)⟩

/-- Client-side state of the failure-aware import dialog, with the host
interactions instrumented: the module-level variables of the dialog
script, together with the dispatched-but-uncompleted `getSites` calls,
the full dispatch log, the `finishSitesImport` / `cancelSitesImport`
invocations (with their import-id argument), the
`google.script.host.close()` invocations, whether a `finishSitesImport`
call is awaiting its callback, and how many failure callbacks have run. -/
structure DialogState where
  importId : String
  statementQueue : List Statement
  elapsedTime : Nat
  importActive : Bool
  activeRequests : Int
  sitesLoaded : Nat
  totalResults : Nat
  progressRenders : Nat
  inFlight : List Statement
  dispatched : List Statement
  finishCalls : List String
  cancelCalls : List String
  closeCalls : Nat
  finishPending : Bool
  failuresSeen : Nat
deriving DecidableEq, Repr

/-- The dialog's module-level initial state: empty queue,
`importActive = true`, all counters zero, `totalResults` not yet set
(modelled as 0, which is how the dialog's falsiness tests treat it). -/
def initialDialogState : DialogState :=
  { importId := "", statementQueue := [], elapsedTime := 0,
    importActive := true, activeRequests := 0, sitesLoaded := 0,
    totalResults := 0, progressRenders := 0, inFlight := [],
    dispatched := [], finishCalls := [], cancelCalls := [],
    closeCalls := 0, finishPending := false, failuresSeen := 0 }

/-- The `while (activeRequests < 30 && statementQueue.length > 0)` loop
of `processStatementQueue`, acting on the queue, the in-flight set, the
dispatch log and the `activeRequests` counter: each iteration shifts the
queue's head, increments `activeRequests`, and issues the asynchronous
`getSites` call for the head. -/
def processLoop (queue inFlight dispatched : List Statement) (active : Int) :
    List Statement × List Statement × List Statement × Int :=
  match queue with
  | [] => ([], inFlight, dispatched, active)
  | stmt :: rest =>
    if active < 30 then
      processLoop rest (inFlight ++ [stmt]) (dispatched ++ [stmt]) (active + 1)
    else (stmt :: rest, inFlight, dispatched, active)

/-- `processStatementQueue`: fills the request pool from the queue up to
the fixed concurrency cap of 30. -/
def processStatementQueue (s : DialogState) : DialogState :=
  let r := processLoop s.statementQueue s.inFlight s.dispatched s.activeRequests
  { s with statementQueue := r.1, inFlight := r.2.1, dispatched := r.2.2.1,
           activeRequests := r.2.2.2 }

/-- `onErrorLoadingSites`: deactivates the import, clears the pending
queue, renders the error panel, and issues `cancelSitesImport` with the
current import id. One failure callback is recorded. -/
def onErrorLoadingSites (s : DialogState) : DialogState :=
  { s with importActive := false, statementQueue := [],
           cancelCalls := s.cancelCalls ++ [s.importId],
           failuresSeen := s.failuresSeen + 1 }

/-- `onAllSitesLoaded`: issues the asynchronous `finishSitesImport` call
with the current import id. -/
def onAllSitesLoaded (s : DialogState) : DialogState :=
  { s with finishCalls := s.finishCalls ++ [s.importId],
           finishPending := true }

/-- `onImportFinishedSuccess`: calls `google.script.host.close()`. -/
def onImportFinishedSuccess (s : DialogState) : DialogState :=
  { s with closeCalls := s.closeCalls + 1, finishPending := false }

/-- `onSitesLoadedSuccess`: decrements `activeRequests`, adds the batch's
record count to `sitesLoaded`, and either triggers `onAllSitesLoaded`
(exactly when `sitesLoaded === totalResults`) or refills the request pool
from the queue. -/
def onSitesLoadedSuccess (s : DialogState) (n : Nat) : DialogState :=
  let s1 := { s with activeRequests := s.activeRequests - 1,
                     sitesLoaded := s.sitesLoaded + n }
  if s1.sitesLoaded = s1.totalResults then onAllSitesLoaded s1
  else processStatementQueue s1

/-- `updateProgress`, the failure-aware dialog's one-second tick
callback: a no-op unless the import is active and `totalResults` is set
and nonzero; otherwise it increments the elapsed-time counter and renders
elapsed time, progress bar and retrieved count. -/
def updateProgress (s : DialogState) : DialogState :=
  if s.importActive = false ∨ s.totalResults = 0 then s
  else { s with elapsedTime := s.elapsedTime + 1,
                progressRenders := s.progressRenders + 1 }

/-- The dialog's `init`: a zero expected total goes directly to the
error path (`onErrorLoadingSites`); otherwise the total, the import id
and the queue are set and the request pool is filled. The recurring
one-second timer started here is modelled as `tick` events. -/
def dialogInit (id : String) (statements : List Statement) (numResults : Nat) :
    DialogState :=
  if numResults = 0 then onErrorLoadingSites initialDialogState
  else
    processStatementQueue
      { initialDialogState with
          totalResults := numResults, importActive := true, importId := id,
          statementQueue := initialDialogState.statementQueue ++ statements }

/-- An asynchronous callback delivered by the host to the dialog's
single-threaded event loop: completion (success with a record count, or
failure after the data-access collaborator's retries) of one in-flight
`getSites` call, identified by its position in the in-flight set;
completion of the pending `finishSitesImport` call; or a one-second
timer tick. -/
inductive DialogEvent where
  | fetchSuccess (i : Nat) (n : Nat)
  | fetchFailure (i : Nat)
  | finishSuccess
  | finishFailure
  | tick
deriving DecidableEq, Repr

/-- Whether an event is a failure callback. -/
def isFailureEvent : DialogEvent → Bool
  | .fetchFailure _ => true
  | .finishFailure => true
  | _ => false

/-- One event processed by the dialog's event loop. An event whose
callback is not actually pending (no such in-flight call, no pending
finish call) is not deliverable and leaves the state unchanged. -/
def dialogStep (s : DialogState) (e : DialogEvent) : DialogState :=
  match e with
  | .fetchSuccess i n =>
    if i < s.inFlight.length then
      onSitesLoadedSuccess { s with inFlight := s.inFlight.eraseIdx i } n
    else s
  | .fetchFailure i =>
    if i < s.inFlight.length then
      onErrorLoadingSites { s with inFlight := s.inFlight.eraseIdx i }
    else s
  | .finishSuccess =>
    if s.finishPending then onImportFinishedSuccess s else s
  | .finishFailure =>
    if s.finishPending then
      onErrorLoadingSites { s with finishPending := false }
    else s
  | .tick => updateProgress s

/-- Runs the dialog's event loop over a list of delivered events. -/
def dialogRun (s : DialogState) : List DialogEvent → DialogState
  | [] => s
  | e :: es => dialogRun (dialogStep s e) es

/-- Whether a fetch-success event delivers the true record count, as
given by `cnt`, of the in-flight page it completes. -/
def eventAccurate (cnt : Statement → Nat) (s : DialogState) : DialogEvent → Bool
  | .fetchSuccess i n =>
    match s.inFlight[i]? with
    | some stmt => n == cnt stmt
    | none => true
  | _ => true

/-- Whether every fetch-success event of the run delivers the true
record count of the page it completes. -/
def accurateRun (cnt : Statement → Nat) : DialogState → List DialogEvent → Bool
  | _, [] => true
  | s, e :: es => eventAccurate cnt s e && accurateRun cnt (dialogStep s e) es

/-- Total true record count of a list of pages. -/
def cntSum (cnt : Statement → Nat) (l : List Statement) : Nat :=
  (l.map cnt).sum

def stmtA : Statement := { query := "q0", values := [] }

def stmtB : Statement := { query := "q1", values := [] }

def stmtC : Statement := { query := "q2", values := [] }

/-- Characterization of the dispatch loop: some number `k` of pages is
moved, in order, from the front of the queue to the tails of the
in-flight set and the dispatch log, `activeRequests` grows by `k`, the
loop stops only with an empty queue or a full pool, and every iteration
ran under the `activeRequests < 30` guard. -/
theorem processLoop_spec (queue : List Statement) :
    ∀ inFlight dispatched : List Statement, ∀ active : Int,
      ∃ k : Nat, k ≤ queue.length ∧
        processLoop queue inFlight dispatched active =
          (queue.drop k, inFlight ++ queue.take k, dispatched ++ queue.take k,
            active + (k : Int)) ∧
        (queue.drop k = [] ∨ 30 ≤ active + (k : Int)) ∧
        (∀ j : Nat, j < k → active + (j : Int) < 30) := by
  induction queue with
  | nil =>
    intro inFlight dispatched active
    refine ⟨0, by omega, by simp [processLoop], Or.inl rfl, by omega⟩
  | cons stmt rest ih =>
    intro inFlight dispatched active
    by_cases h : active < 30
    · obtain ⟨k, hk, heq, hpost, hguard⟩ :=
        ih (inFlight ++ [stmt]) (dispatched ++ [stmt]) (active + 1)
      refine ⟨k + 1, by simpa using hk, ?_, ?_, ?_⟩
      · rw [processLoop, if_pos h, heq]
        simp only [List.drop_succ_cons, List.take_succ_cons, Prod.mk.injEq,
          List.append_assoc, List.singleton_append]
        refine ⟨trivial, trivial, trivial, ?_⟩
        push_cast
        omega
      · rcases hpost with hpost | hpost
        · exact Or.inl (by simpa using hpost)
        · refine Or.inr ?_
          push_cast
          omega
      · intro j hj
        cases j with
        | zero => simpa using h
        | succ j2 =>
          have := hguard j2 (by omega)
          push_cast at this ⊢
          omega
    · refine ⟨0, by omega, ?_, Or.inr (by omega), by omega⟩
      rw [processLoop, if_neg h]
      simp

/-- `processStatementQueue` as a record update: `k` pages move from the
queue head to the in-flight set and dispatch log, everything else is
untouched. -/
theorem processStatementQueue_spec (s : DialogState) :
    ∃ k : Nat, k ≤ s.statementQueue.length ∧
      processStatementQueue s =
        { s with statementQueue := s.statementQueue.drop k,
                 inFlight := s.inFlight ++ s.statementQueue.take k,
                 dispatched := s.dispatched ++ s.statementQueue.take k,
                 activeRequests := s.activeRequests + (k : Int) } ∧
      (s.statementQueue.drop k = [] ∨ 30 ≤ s.activeRequests + (k : Int)) ∧
      (∀ j : Nat, j < k → s.activeRequests + (j : Int) < 30) := by
  obtain ⟨k, hk, heq, hpost, hguard⟩ :=
    processLoop_spec s.statementQueue s.inFlight s.dispatched s.activeRequests
  exact ⟨k, hk, by rw [processStatementQueue, heq], hpost, hguard⟩

/-- With an empty queue, `processStatementQueue` does nothing. -/
theorem processStatementQueue_empty (s : DialogState)
    (h : s.statementQueue = []) : processStatementQueue s = s := by
  obtain ⟨k, hk, heq, _, _⟩ := processStatementQueue_spec s
  have hk0 : k = 0 := by
    rw [h] at hk
    simpa using hk
  subst hk0
  rw [heq]
  simp

/-- The tick callback either does nothing or only advances the elapsed
time and render counters. -/
theorem updateProgress_eq_or (s : DialogState) :
    updateProgress s = s ∨
      updateProgress s =
        { s with elapsedTime := s.elapsedTime + 1,
                 progressRenders := s.progressRenders + 1 } := by
  unfold updateProgress
  split
  · exact Or.inl rfl
  · exact Or.inr rfl

theorem cntSum_nil (cnt : Statement → Nat) : cntSum cnt [] = 0 := rfl

theorem cntSum_cons (cnt : Statement → Nat) (a : Statement) (l : List Statement) :
    cntSum cnt (a :: l) = cnt a + cntSum cnt l := by
  simp [cntSum]

theorem cntSum_append (cnt : Statement → Nat) (a b : List Statement) :
    cntSum cnt (a ++ b) = cntSum cnt a + cntSum cnt b := by
  simp [cntSum]

/-- Removing the completed page from the in-flight set removes exactly
its true count from the total. -/
theorem cntSum_eraseIdx (cnt : Statement → Nat) (l : List Statement) (i : Nat)
    (h : i < l.length) :
    cntSum cnt (l.eraseIdx i) + cnt (l.get ⟨i, h⟩) = cntSum cnt l := by
  have hsplit : l = l.take i ++ l.get ⟨i, h⟩ :: l.drop (i + 1) := by
    conv_lhs => rw [← List.take_append_drop i l]
    rw [List.drop_eq_getElem_cons h]
    rfl
  rw [List.eraseIdx_eq_take_drop_succ]
  conv_rhs => rw [hsplit]
  rw [cntSum_append, cntSum_append, cntSum_cons]
  omega

/-- A list of pages with positive true counts and zero total is empty. -/
theorem cntSum_eq_zero (cnt : Statement → Nat) (S : List Statement)
    (hpos : ∀ p ∈ S, 0 < cnt p) (l : List Statement)
    (hmem : ∀ p ∈ l, p ∈ S) (h : cntSum cnt l = 0) : l = [] := by
  cases l with
  | nil => rfl
  | cons a t =>
    have ha := hpos a (hmem a (by simp))
    rw [cntSum_cons] at h
    omega

/-- Inductive invariant of the dialog's event loop, minus the
pool-refill property, for a session created from planner pages `S` with
true per-page record counts `cnt` summing to the expected `total`:
the concurrency counter never exceeds the cap; before any failure it
counts exactly the in-flight calls, the dispatch log followed by the
queue is exactly the planner's page list, and the loaded count plus the
counts still queued or in flight is the expected total; after a failure
the import is inactive, the queue is cleared, no finish call is pending,
the dialog was never closed, and the remaining counts can no longer
reach the total; cancellation calls match the failures seen one for one;
a pending finish call or a performed close means nothing is queued or in
flight; and the dispatch log is always a prefix of the planner's list. -/
structure PreInv (cnt : Statement → Nat) (S : List Statement) (total : Nat)
    (s : DialogState) : Prop where
  cap : s.activeRequests ≤ 30
  tot : s.totalResults = total
  actF : s.failuresSeen = 0 → s.activeRequests = (s.inFlight.length : Int)
  fifo0 : s.failuresSeen = 0 → s.dispatched ++ s.statementQueue = S
  mem : ∀ p, p ∈ s.statementQueue ++ s.inFlight → p ∈ S
  count0 : s.failuresSeen = 0 →
    s.sitesLoaded + cntSum cnt (s.statementQueue ++ s.inFlight) = total
  fail1 : 1 ≤ s.failuresSeen →
    s.importActive = false ∧ s.statementQueue = [] ∧
      s.finishPending = false ∧ s.closeCalls = 0 ∧
      (s.sitesLoaded + cntSum cnt s.inFlight < total ∨ s.inFlight = [])
  cancel : s.cancelCalls.length = s.failuresSeen
  pend : s.finishPending = true → s.statementQueue = [] ∧ s.inFlight = []
  closed0 : 1 ≤ s.closeCalls → s.statementQueue = [] ∧ s.inFlight = []
  closedPend : 1 ≤ s.closeCalls → s.finishPending = false
  disp : ∃ k, s.dispatched = S.take k

/-- The full invariant: additionally, a non-empty queue means the
request pool is full. -/
structure AccInv (cnt : Statement → Nat) (S : List Statement) (total : Nat)
    (s : DialogState) extends PreInv cnt S total s : Prop where
  sched : s.statementQueue ≠ [] → 30 ≤ s.activeRequests

/-- Refilling the pool from the queue preserves the invariant and
re-establishes the pool-refill property. -/
theorem processStatementQueue_full (cnt : Statement → Nat) (S : List Statement)
    (total : Nat) (s : DialogState) (pre : PreInv cnt S total s) :
    AccInv cnt S total (processStatementQueue s) := by
  obtain ⟨k, hk, heq, hpost, hguard⟩ := processStatementQueue_spec s
  rw [heq]
  refine ⟨⟨?_, ?_, ?_, ?_, ?_, ?_, ?_, ?_, ?_, ?_, ?_, ?_⟩, ?_⟩
  · -- cap
    dsimp only
    rcases Nat.eq_zero_or_pos k with rfl | hkpos
    · have := pre.cap
      omega
    · have := hguard (k - 1) (by omega)
      omega
  · -- tot
    exact pre.tot
  · -- actF
    intro h0
    have ha := pre.actF h0
    dsimp only
    rw [List.length_append, List.length_take, Nat.min_eq_left hk]
    omega
  · -- fifo0
    intro h0
    dsimp only
    rw [List.append_assoc, List.take_append_drop]
    exact pre.fifo0 h0
  · -- mem
    intro p hp
    apply pre.mem p
    simp only [List.mem_append] at hp ⊢
    rcases hp with hp | hp | hp
    · exact Or.inl ((List.drop_sublist k s.statementQueue).subset hp)
    · exact Or.inr hp
    · exact Or.inl ((List.take_sublist k s.statementQueue).subset hp)
  · -- count0
    intro h0
    have hc := pre.count0 h0
    rw [cntSum_append] at hc
    have hq : cntSum cnt s.statementQueue =
        cntSum cnt (s.statementQueue.take k) + cntSum cnt (s.statementQueue.drop k) := by
      rw [← cntSum_append, List.take_append_drop]
    dsimp only
    rw [cntSum_append, cntSum_append]
    omega
  · -- fail1
    intro hf
    obtain ⟨hia, hq, hfp, hcc, hcounter⟩ := pre.fail1 hf
    have hk0 : k = 0 := by
      rw [hq] at hk
      simpa using hk
    subst hk0
    refine ⟨hia, by simp [hq], hfp, hcc, ?_⟩
    dsimp only
    simpa using hcounter
  · -- cancel
    exact pre.cancel
  · -- pend
    intro hp
    obtain ⟨hq, hfl⟩ := pre.pend hp
    have hk0 : k = 0 := by
      rw [hq] at hk
      simpa using hk
    subst hk0
    constructor
    · simp [hq]
    · dsimp only
      simp [hfl]
  · -- closed0
    intro h1
    obtain ⟨hq, hfl⟩ := pre.closed0 h1
    have hk0 : k = 0 := by
      rw [hq] at hk
      simpa using hk
    subst hk0
    constructor
    · simp [hq]
    · dsimp only
      simp [hfl]
  · -- closedPend
    intro h1
    exact pre.closedPend h1
  · -- disp
    obtain ⟨k0, hD⟩ := pre.disp
    rcases Nat.eq_zero_or_pos s.failuresSeen with hf | hf
    · have hfifo := pre.fifo0 hf
      have hQ : s.statementQueue = S.drop k0 := by
        have h2 : S.take k0 ++ s.statementQueue = S.take k0 ++ S.drop k0 := by
          rw [List.take_append_drop, ← hD]
          exact hfifo
        exact List.append_cancel_left h2
      refine ⟨k0 + k, ?_⟩
      dsimp only
      rw [hD, hQ, List.take_add]
    · have hq := (pre.fail1 hf).2.1
      have hk0 : k = 0 := by
        rw [hq] at hk
        simpa using hk
      subst hk0
      refine ⟨k0, ?_⟩
      dsimp only
      simpa using hD
  · -- sched
    intro hne
    dsimp only at hne ⊢
    rcases hpost with hpost | hpost
    · exact absurd hpost hne
    · exact hpost

/-- One accurately-reported event preserves the invariant. -/
theorem dialogStep_AccInv (cnt : Statement → Nat) (S : List Statement)
    (total : Nat) (hpos : ∀ p ∈ S, 0 < cnt p) (s : DialogState)
    (e : DialogEvent) (inv : AccInv cnt S total s)
    (hacc : eventAccurate cnt s e = true) :
    AccInv cnt S total (dialogStep s e) := by
  cases e with
  | tick =>
    simp only [dialogStep]
    rcases updateProgress_eq_or s with h | h <;> rw [h]
    · exact inv
    · exact ⟨⟨inv.cap, inv.tot, inv.actF, inv.fifo0, inv.mem, inv.count0,
        inv.fail1, inv.cancel, inv.pend, inv.closed0, inv.closedPend, inv.disp⟩,
        inv.sched⟩
  | finishSuccess =>
    simp only [dialogStep]
    by_cases hp : s.finishPending = true
    · rw [if_pos hp]
      simp only [onImportFinishedSuccess]
      refine ⟨⟨inv.cap, inv.tot, inv.actF, inv.fifo0, inv.mem, inv.count0, ?_,
        inv.cancel, ?_, ?_, ?_, inv.disp⟩, inv.sched⟩
      · intro hf
        have h2 := (inv.fail1 hf).2.2.1
        rw [hp] at h2
        simp at h2
      · intro h2
        simp at h2
      · intro _
        exact inv.pend hp
      · intro _
        rfl
    · rw [if_neg hp]
      exact inv
  | finishFailure =>
    simp only [dialogStep]
    by_cases hp : s.finishPending = true
    · rw [if_pos hp]
      obtain ⟨hq, hfl⟩ := inv.pend hp
      simp only [onErrorLoadingSites]
      have hcc : s.closeCalls = 0 := by
        rcases Nat.eq_zero_or_pos s.closeCalls with h | h
        · exact h
        · have h2 := inv.closedPend h
          rw [hp] at h2
          simp at h2
      refine ⟨⟨inv.cap, inv.tot, ?_, ?_, ?_, ?_, ?_, ?_, ?_, ?_, ?_, inv.disp⟩, ?_⟩
      · intro h0
        dsimp only at h0
        exfalso
        omega
      · intro h0
        dsimp only at h0
        exfalso
        omega
      · intro p hp2
        apply inv.mem p
        simp only [List.nil_append] at hp2
        simp only [List.mem_append]
        exact Or.inr hp2
      · intro h0
        dsimp only at h0
        exfalso
        omega
      · intro _
        exact ⟨rfl, rfl, rfl, hcc, Or.inr hfl⟩
      · simp [List.length_append, inv.cancel]
      · intro h2
        simp at h2
      · intro h1
        dsimp only at h1
        exfalso
        omega
      · intro _
        rfl
      · intro hne
        exact absurd rfl hne
    · rw [if_neg hp]
      exact inv
  | fetchFailure i =>
    simp only [dialogStep]
    by_cases hi : i < s.inFlight.length
    · rw [if_pos hi]
      simp only [onErrorLoadingSites]
      have hpmem : s.inFlight.get ⟨i, hi⟩ ∈ S := by
        apply inv.mem
        simp only [List.mem_append]
        exact Or.inr (List.get_mem s.inFlight i hi)
      have hppos := hpos _ hpmem
      have herase := cntSum_eraseIdx cnt s.inFlight i hi
      have hfl_ne : s.inFlight ≠ [] := by
        intro h
        rw [h] at hi
        simp at hi
      have hpendF : s.finishPending = false := by
        cases hpd : s.finishPending
        · rfl
        · exact absurd (inv.pend hpd).2 hfl_ne
      have hcc : s.closeCalls = 0 := by
        rcases Nat.eq_zero_or_pos s.closeCalls with h | h
        · exact h
        · exact absurd (inv.closed0 h).2 hfl_ne
      refine ⟨⟨inv.cap, inv.tot, ?_, ?_, ?_, ?_, ?_, ?_, ?_, ?_, ?_, inv.disp⟩, ?_⟩
      · intro h0
        dsimp only at h0
        exfalso
        omega
      · intro h0
        dsimp only at h0
        exfalso
        omega
      · intro p hp2
        apply inv.mem p
        simp only [List.nil_append] at hp2
        simp only [List.mem_append]
        exact Or.inr ((List.eraseIdx_sublist s.inFlight i).subset hp2)
      · intro h0
        dsimp only at h0
        exfalso
        omega
      · intro _
        refine ⟨rfl, rfl, hpendF, hcc, Or.inl ?_⟩
        dsimp only
        rcases Nat.eq_zero_or_pos s.failuresSeen with hf | hf
        · have hc := inv.count0 hf
          rw [cntSum_append] at hc
          omega
        · rcases (inv.fail1 hf).2.2.2.2 with hlt | hemp
          · omega
          · exact absurd hemp hfl_ne
      · simp [List.length_append, inv.cancel]
      · intro h2
        rw [hpendF] at h2
        simp at h2
      · intro h1
        dsimp only at h1
        exfalso
        omega
      · intro h1
        dsimp only at h1
        exfalso
        omega
      · intro hne
        exact absurd rfl hne
    · rw [if_neg hi]
      exact inv
  | fetchSuccess i n =>
    simp only [dialogStep]
    by_cases hi : i < s.inFlight.length
    · rw [if_pos hi]
      have hn : n = cnt (s.inFlight.get ⟨i, hi⟩) := by
        simp only [eventAccurate] at hacc
        rw [List.getElem?_eq_getElem hi] at hacc
        simpa using hacc
      have hpmem : s.inFlight.get ⟨i, hi⟩ ∈ S := by
        apply inv.mem
        simp only [List.mem_append]
        exact Or.inr (List.get_mem s.inFlight i hi)
      have hppos := hpos _ hpmem
      have herase := cntSum_eraseIdx cnt s.inFlight i hi
      have hfl_ne : s.inFlight ≠ [] := by
        intro h
        rw [h] at hi
        simp at hi
      have hcc : s.closeCalls = 0 := by
        rcases Nat.eq_zero_or_pos s.closeCalls with h | h
        · exact h
        · exact absurd (inv.closed0 h).2 hfl_ne
      have hlen := List.length_eraseIdx_of_lt hi
      have htot := inv.tot
      simp only [onSitesLoadedSuccess]
      by_cases hdone : s.sitesLoaded + n = s.totalResults
      · rw [if_pos hdone]
        have hf0 : s.failuresSeen = 0 := by
          by_contra hf
          have hfail := inv.fail1 (by omega)
          rcases hfail.2.2.2.2 with hlt | hemp
          · omega
          · exact absurd hemp hfl_ne
        have hc := inv.count0 hf0
        rw [cntSum_append] at hc
        have hq0 : cntSum cnt (s.statementQueue ++ s.inFlight.eraseIdx i) = 0 := by
          rw [cntSum_append]
          omega
        have hqe := cntSum_eq_zero cnt S hpos _ (fun p hp2 => by
          apply inv.mem p
          simp only [List.mem_append] at hp2 ⊢
          rcases hp2 with hp2 | hp2
          · exact Or.inl hp2
          · exact Or.inr ((List.eraseIdx_sublist s.inFlight i).subset hp2)) hq0
        obtain ⟨hq, he⟩ := List.append_eq_nil.mp hqe
        simp only [onAllSitesLoaded]
        refine ⟨⟨?_, inv.tot, ?_, ?_, ?_, ?_, ?_, inv.cancel, ?_, ?_, ?_, inv.disp⟩, ?_⟩
        · have := inv.cap
          dsimp only
          omega
        · intro _
          have ha := inv.actF hf0
          dsimp only
          omega
        · intro _
          exact inv.fifo0 hf0
        · intro p hp2
          apply inv.mem p
          simp only [List.mem_append] at hp2 ⊢
          rcases hp2 with hp2 | hp2
          · exact Or.inl hp2
          · exact Or.inr ((List.eraseIdx_sublist s.inFlight i).subset hp2)
        · intro _
          dsimp only
          omega
        · intro hf
          dsimp only at hf
          exfalso
          omega
        · intro _
          exact ⟨hq, he⟩
        · intro h1
          dsimp only at h1
          exfalso
          omega
        · intro h1
          dsimp only at h1
          exfalso
          omega
        · intro hne
          exact absurd hq hne
      · rw [if_neg hdone]
        apply processStatementQueue_full
        refine ⟨?_, inv.tot, ?_, ?_, ?_, ?_, ?_, inv.cancel, ?_, ?_, ?_, inv.disp⟩
        · have := inv.cap
          dsimp only
          omega
        · intro h0
          have ha := inv.actF h0
          dsimp only
          omega
        · intro h0
          exact inv.fifo0 h0
        · intro p hp2
          apply inv.mem p
          simp only [List.mem_append] at hp2 ⊢
          rcases hp2 with hp2 | hp2
          · exact Or.inl hp2
          · exact Or.inr ((List.eraseIdx_sublist s.inFlight i).subset hp2)
        · intro h0
          have hc := inv.count0 h0
          rw [cntSum_append] at hc
          dsimp only
          rw [cntSum_append]
          omega
        · intro hf
          obtain ⟨hia, hq2, hfp, hcc2, hcounter⟩ := inv.fail1 hf
          refine ⟨hia, hq2, hfp, hcc2, ?_⟩
          rcases hcounter with hlt | hemp
          · refine Or.inl ?_
            dsimp only
            omega
          · exact absurd hemp hfl_ne
        · intro h2
          exact absurd (inv.pend h2).2 hfl_ne
        · intro h1
          dsimp only at h1
          exfalso
          omega
        · intro h1
          dsimp only at h1
          exfalso
          omega
    · rw [if_neg hi]
      exact inv

/-- A freshly initialized session with accurate page counts satisfies
the invariant. -/
theorem dialogInit_AccInv (cnt : Statement → Nat) (S : List Statement)
    (total : Nat) (id : String) (hpos : ∀ p ∈ S, 0 < cnt p)
    (htot : 0 < total) (hsum : cntSum cnt S = total) :
    AccInv cnt S total (dialogInit id S total) := by
  rw [dialogInit, if_neg (by omega)]
  apply processStatementQueue_full
  refine ⟨?_, rfl, ?_, ?_, ?_, ?_, ?_, rfl, ?_, ?_, ?_, ?_⟩
  · dsimp only [initialDialogState]
    omega
  · intro _
    rfl
  · intro _
    simp [initialDialogState]
  · intro p hp
    simp only [initialDialogState, List.nil_append, List.append_nil] at hp
    exact hp
  · intro _
    simp only [initialDialogState, List.nil_append, List.append_nil]
    simpa using hsum
  · intro hf
    dsimp only [initialDialogState] at hf
    exfalso
    omega
  · intro h2
    dsimp only [initialDialogState] at h2
    simp at h2
  · intro h1
    dsimp only [initialDialogState] at h1
    exfalso
    omega
  · intro h1
    dsimp only [initialDialogState] at h1
    exfalso
    omega
  · exact ⟨0, by simp [initialDialogState]⟩

/-- The invariant holds in every state reachable by accurately-reported
events. -/
theorem dialogRun_AccInv (cnt : Statement → Nat) (S : List Statement)
    (total : Nat) (hpos : ∀ p ∈ S, 0 < cnt p) :
    ∀ events : List DialogEvent, ∀ s : DialogState, AccInv cnt S total s →
      accurateRun cnt s events = true →
      AccInv cnt S total (dialogRun s events) := by
  intro events
  induction events with
  | nil =>
    intro s inv _
    exact inv
  | cons e es ih =>
    intro s inv hacc
    simp only [accurateRun, Bool.and_eq_true] at hacc
    exact ih (dialogStep s e) (dialogStep_AccInv cnt S total hpos s e inv hacc.1)
      hacc.2

/-- The refill loop keeps the concurrency counter within the cap. -/
theorem processStatementQueue_cap (s : DialogState)
    (h : s.activeRequests ≤ 30) :
    (processStatementQueue s).activeRequests ≤ 30 := by
  obtain ⟨k, hk, heq, _, hguard⟩ := processStatementQueue_spec s
  rw [heq]
  dsimp only
  rcases Nat.eq_zero_or_pos k with rfl | hkpos
  · omega
  · have := hguard (k - 1) (by omega)
    omega

/-- Every event keeps the concurrency counter within the cap, failures
and inaccurate counts included. -/
theorem dialogStep_cap (s : DialogState) (e : DialogEvent)
    (h : s.activeRequests ≤ 30) :
    (dialogStep s e).activeRequests ≤ 30 := by
  cases e with
  | tick =>
    simp only [dialogStep]
    rcases updateProgress_eq_or s with h2 | h2 <;> rw [h2] <;> exact h
  | finishSuccess =>
    simp only [dialogStep]
    by_cases hp : s.finishPending = true
    · rw [if_pos hp]
      exact h
    · rw [if_neg hp]
      exact h
  | finishFailure =>
    simp only [dialogStep]
    by_cases hp : s.finishPending = true
    · rw [if_pos hp]
      exact h
    · rw [if_neg hp]
      exact h
  | fetchFailure i =>
    simp only [dialogStep]
    by_cases hi : i < s.inFlight.length
    · rw [if_pos hi]
      exact h
    · rw [if_neg hi]
      exact h
  | fetchSuccess i n =>
    simp only [dialogStep]
    by_cases hi : i < s.inFlight.length
    · rw [if_pos hi]
      simp only [onSitesLoadedSuccess]
      by_cases hdone : s.sitesLoaded + n = s.totalResults
      · rw [if_pos hdone]
        simp only [onAllSitesLoaded]
        omega
      · rw [if_neg hdone]
        apply processStatementQueue_cap
        dsimp only
        omega
    · rw [if_neg hi]
      exact h

/-- The concurrency cap holds in every reachable state. -/
theorem dialogRun_cap :
    ∀ events : List DialogEvent, ∀ s : DialogState,
      s.activeRequests ≤ 30 →
      (dialogRun s events).activeRequests ≤ 30 := by
  intro events
  induction events with
  | nil =>
    intro s h
    exact h
  | cons e es ih =>
    intro s h
    exact ih (dialogStep s e) (dialogStep_cap s e h)

/-- The refill loop moves pages between the dispatch log and the queue
without changing their concatenation. -/
theorem processStatementQueue_fifo (s : DialogState) :
    (processStatementQueue s).dispatched ++
        (processStatementQueue s).statementQueue =
      s.dispatched ++ s.statementQueue := by
  obtain ⟨k, _, heq, _, _⟩ := processStatementQueue_spec s
  rw [heq]
  dsimp only
  rw [List.append_assoc, List.take_append_drop]

/-- Every non-failure event preserves the planner order: the dispatch
log followed by the queue stays the full planner page list. -/
theorem dialogStep_fifo (S : List Statement) (s : DialogState)
    (e : DialogEvent) (hne : isFailureEvent e = false)
    (h : s.dispatched ++ s.statementQueue = S) :
    (dialogStep s e).dispatched ++ (dialogStep s e).statementQueue = S := by
  cases e with
  | tick =>
    simp only [dialogStep]
    rcases updateProgress_eq_or s with h2 | h2 <;> rw [h2] <;> exact h
  | finishSuccess =>
    simp only [dialogStep]
    by_cases hp : s.finishPending = true
    · rw [if_pos hp]
      exact h
    · rw [if_neg hp]
      exact h
  | finishFailure =>
    simp [isFailureEvent] at hne
  | fetchFailure i =>
    simp [isFailureEvent] at hne
  | fetchSuccess i n =>
    simp only [dialogStep]
    by_cases hi : i < s.inFlight.length
    · rw [if_pos hi]
      simp only [onSitesLoadedSuccess]
      by_cases hdone : s.sitesLoaded + n = s.totalResults
      · rw [if_pos hdone]
        simp only [onAllSitesLoaded]
        exact h
      · rw [if_neg hdone]
        rw [processStatementQueue_fifo]
        exact h
    · rw [if_neg hi]
      exact h

/-- Along a failure-free run, the dispatch log followed by the queue
stays the full planner page list. -/
theorem dialogRun_fifo (S : List Statement) :
    ∀ events : List DialogEvent, ∀ s : DialogState,
      (∀ e ∈ events, isFailureEvent e = false) →
      s.dispatched ++ s.statementQueue = S →
      (dialogRun s events).dispatched ++
        (dialogRun s events).statementQueue = S := by
  intro events
  induction events with
  | nil =>
    intro s _ h
    exact h
  | cons e es ih =>
    intro s hne h
    exact ih (dialogStep s e) (fun e2 he2 => hne e2 (by simp [he2]))
      (dialogStep_fifo S s e (hne e (by simp)) h)

/-- Non-failure events record no failure. -/
theorem dialogStep_failures_nofail (s : DialogState) (e : DialogEvent)
    (hne : isFailureEvent e = false) :
    (dialogStep s e).failuresSeen = s.failuresSeen := by
  cases e with
  | tick =>
    simp only [dialogStep]
    rcases updateProgress_eq_or s with h2 | h2 <;> rw [h2] <;> rfl
  | finishSuccess =>
    simp only [dialogStep]
    by_cases hp : s.finishPending = true
    · rw [if_pos hp]
      rfl
    · rw [if_neg hp]
  | finishFailure =>
    simp [isFailureEvent] at hne
  | fetchFailure i =>
    simp [isFailureEvent] at hne
  | fetchSuccess i n =>
    simp only [dialogStep]
    by_cases hi : i < s.inFlight.length
    · rw [if_pos hi]
      simp only [onSitesLoadedSuccess]
      by_cases hdone : s.sitesLoaded + n = s.totalResults
      · rw [if_pos hdone]
        rfl
      · rw [if_neg hdone]
        obtain ⟨k, _, heq, _, _⟩ := processStatementQueue_spec _
        rw [heq]
    · rw [if_neg hi]

/-- A failure-free run records no failure. -/
theorem dialogRun_failures_nofail :
    ∀ events : List DialogEvent, ∀ s : DialogState,
      (∀ e ∈ events, isFailureEvent e = false) →
      (dialogRun s events).failuresSeen = s.failuresSeen := by
  intro events
  induction events with
  | nil =>
    intro s _
    rfl
  | cons e es ih =>
    intro s hne
    rw [dialogRun]
    rw [ih (dialogStep s e) (fun e2 he2 => hne e2 (by simp [he2]))]
    exact dialogStep_failures_nofail s e (hne e (by simp))

/-- The failure count never decreases. -/
theorem dialogStep_failures_mono (s : DialogState) (e : DialogEvent) :
    s.failuresSeen ≤ (dialogStep s e).failuresSeen := by
  cases e with
  | tick =>
    simp only [dialogStep]
    rcases updateProgress_eq_or s with h2 | h2 <;> rw [h2] <;> omega
  | finishSuccess =>
    simp only [dialogStep]
    by_cases hp : s.finishPending = true
    · rw [if_pos hp]
      exact Nat.le_refl _
    · rw [if_neg hp]
  | finishFailure =>
    simp only [dialogStep]
    by_cases hp : s.finishPending = true
    · rw [if_pos hp]
      dsimp only [onErrorLoadingSites]
      omega
    · rw [if_neg hp]
  | fetchFailure i =>
    simp only [dialogStep]
    by_cases hi : i < s.inFlight.length
    · rw [if_pos hi]
      dsimp only [onErrorLoadingSites]
      omega
    · rw [if_neg hi]
  | fetchSuccess i n =>
    simp only [dialogStep]
    by_cases hi : i < s.inFlight.length
    · rw [if_pos hi]
      simp only [onSitesLoadedSuccess]
      by_cases hdone : s.sitesLoaded + n = s.totalResults
      · rw [if_pos hdone]
        exact Nat.le_refl _
      · rw [if_neg hdone]
        obtain ⟨k, _, heq, _, _⟩ := processStatementQueue_spec _
        rw [heq]
    · rw [if_neg hi]

/-- The failure count never decreases along a run. -/
theorem dialogRun_failures_mono :
    ∀ events : List DialogEvent, ∀ s : DialogState,
      s.failuresSeen ≤ (dialogRun s events).failuresSeen := by
  intro events
  induction events with
  | nil =>
    intro s
    exact Nat.le_refl _
  | cons e es ih =>
    intro s
    exact Nat.le_trans (dialogStep_failures_mono s e) (ih (dialogStep s e))

/-- Once the queue is empty, no event refills it and no further page is
ever dispatched. -/
theorem dialogStep_frozen (s : DialogState) (e : DialogEvent)
    (h : s.statementQueue = []) :
    (dialogStep s e).statementQueue = [] ∧
      (dialogStep s e).dispatched = s.dispatched := by
  cases e with
  | tick =>
    simp only [dialogStep]
    rcases updateProgress_eq_or s with h2 | h2 <;> rw [h2] <;> exact ⟨h, rfl⟩
  | finishSuccess =>
    simp only [dialogStep]
    by_cases hp : s.finishPending = true
    · rw [if_pos hp]
      exact ⟨h, rfl⟩
    · rw [if_neg hp]
      exact ⟨h, rfl⟩
  | finishFailure =>
    simp only [dialogStep]
    by_cases hp : s.finishPending = true
    · rw [if_pos hp]
      exact ⟨rfl, rfl⟩
    · rw [if_neg hp]
      exact ⟨h, rfl⟩
  | fetchFailure i =>
    simp only [dialogStep]
    by_cases hi : i < s.inFlight.length
    · rw [if_pos hi]
      exact ⟨rfl, rfl⟩
    · rw [if_neg hi]
      exact ⟨h, rfl⟩
  | fetchSuccess i n =>
    simp only [dialogStep]
    by_cases hi : i < s.inFlight.length
    · rw [if_pos hi]
      simp only [onSitesLoadedSuccess]
      by_cases hdone : s.sitesLoaded + n = s.totalResults
      · rw [if_pos hdone]
        exact ⟨h, rfl⟩
      · rw [if_neg hdone]
        obtain ⟨k, hk, heq, _, _⟩ := processStatementQueue_spec _
        rw [heq]
        constructor
        · simp [h]
        · simp [h]
    · rw [if_neg hi]
      exact ⟨h, rfl⟩

/-- Once the queue is empty, the dispatch log is frozen for the rest of
the session. -/
theorem dialogRun_frozen :
    ∀ events : List DialogEvent, ∀ s : DialogState,
      s.statementQueue = [] →
      (dialogRun s events).statementQueue = [] ∧
        (dialogRun s events).dispatched = s.dispatched := by
  intro events
  induction events with
  | nil =>
    intro s h
    exact ⟨h, rfl⟩
  | cons e es ih =>
    intro s h
    obtain ⟨h1, h2⟩ := dialogStep_frozen s e h
    obtain ⟨h3, h4⟩ := ih (dialogStep s e) h1
    exact ⟨h3, h4.trans h2⟩

/-- A freshly initialized session with a positive expected total has
seen no failure. -/
theorem dialogInit_failures (id : String) (S : List Statement) (total : Nat)
    (htot : 0 < total) : (dialogInit id S total).failuresSeen = 0 := by
  rw [dialogInit, if_neg (by omega)]
  obtain ⟨k, _, heq, _, _⟩ := processStatementQueue_spec _
  rw [heq]
  rfl

/-- C3: in every reachable state of the dialog's event loop the number
of in-flight fetch requests (`activeRequests`) is at most 30; absent any
failure, pages are dispatched in the FIFO order produced by the planner
(the dispatch log followed by the remaining queue is always exactly the
planner's page list); and, absent any failure, once every dispatched
request has completed, the set of pages ever fetched is exactly the
planner's page list — each page fetched exactly once, with no duplicates
and no omissions. -/
theorem claim_C3 (id : String) (S : List Statement) (total : Nat)
    (events : List DialogEvent) (cnt : Statement → Nat)
    (hpos : ∀ p ∈ S, 0 < cnt p) (htot : 0 < total)
    (hsum : cntSum cnt S = total) :
    (dialogRun (dialogInit id S total) events).activeRequests ≤ 30 ∧
    ((∀ e ∈ events, isFailureEvent e = false) →
      (dialogRun (dialogInit id S total) events).dispatched ++
        (dialogRun (dialogInit id S total) events).statementQueue = S) ∧
    (accurateRun cnt (dialogInit id S total) events = true →
      (∀ e ∈ events, isFailureEvent e = false) →
      (dialogRun (dialogInit id S total) events).inFlight = [] →
      (dialogRun (dialogInit id S total) events).dispatched = S ∧
      (S.Nodup → (dialogRun (dialogInit id S total) events).dispatched.Nodup)) := by
  have inv0 := dialogInit_AccInv cnt S total id hpos htot hsum
  refine ⟨?_, ?_, ?_⟩
  · exact dialogRun_cap events _ inv0.cap
  · intro hne
    exact dialogRun_fifo S events _ hne
      (inv0.fifo0 (dialogInit_failures id S total htot))
  · intro hacc hne hquiet
    have inv := dialogRun_AccInv cnt S total hpos events _ inv0 hacc
    have hf0 : (dialogRun (dialogInit id S total) events).failuresSeen = 0 := by
      rw [dialogRun_failures_nofail events _ hne]
      exact dialogInit_failures id S total htot
    have hact := inv.actF hf0
    rw [hquiet] at hact
    have hq : (dialogRun (dialogInit id S total) events).statementQueue = [] := by
      by_contra hne2
      have hsched := inv.sched hne2
      simp at hact
      omega
    have hfifo := inv.fifo0 hf0
    rw [hq, List.append_nil] at hfifo
    exact ⟨hfifo, fun hnd => by rw [hfifo]; exact hnd⟩

/-- C3 witness: a one-page session whose single fetch completes: the cap
holds and the dispatch log is exactly the planner list. -/
theorem claim_C3_witness :
    (dialogRun (dialogInit "imp" [stmtA] 100)
      [DialogEvent.fetchSuccess 0 100]).activeRequests ≤ 30 ∧
    (dialogRun (dialogInit "imp" [stmtA] 100)
      [DialogEvent.fetchSuccess 0 100]).dispatched = [stmtA] := by
  have h := claim_C3 "imp" [stmtA] 100 [DialogEvent.fetchSuccess 0 100]
    (fun _ => 100) (by decide) (by omega) (by decide)
  exact ⟨h.1, (h.2.2 (by decide) (by decide) (by decide)).1⟩

/-- The dialog state of the 250-record scenario: three planner pages
with true record counts 100, 100 and 50. -/
def c4Start : DialogState := dialogInit "imp" [stmtA, stmtB, stmtC] 250

/-- All six completion orders of the three pages (events name in-flight
positions, so the same page always carries the same count: pages
`stmtA`/`stmtB`/`stmtC` return 100/100/50 records), followed by nothing:
the finish completion is appended separately. -/
def c4Traces : List (List DialogEvent) :=
  [ [.fetchSuccess 0 100, .fetchSuccess 0 100, .fetchSuccess 0 50],
    [.fetchSuccess 0 100, .fetchSuccess 1 50, .fetchSuccess 0 100],
    [.fetchSuccess 1 100, .fetchSuccess 0 100, .fetchSuccess 0 50],
    [.fetchSuccess 1 100, .fetchSuccess 1 50, .fetchSuccess 0 100],
    [.fetchSuccess 2 50, .fetchSuccess 0 100, .fetchSuccess 0 100],
    [.fetchSuccess 2 50, .fetchSuccess 1 100, .fetchSuccess 0 100] ]

/-- C4: for the session with expected total 250 and 3 pages returning
100, 100 and 50 records, in every completion order: after any two
completions no finish call has been made; at the third completion the
cumulative count reaches 250 and the driver invokes `finishSitesImport`
exactly once, with the session identifier, without closing yet; and only
when that finish call succeeds is `close()` invoked, exactly once, with
no cancellation over the whole session. -/
theorem claim_C4 :
    (c4Traces.all fun t =>
      ((dialogRun c4Start (t.take 2)).finishCalls == ([] : List String)) &&
      ((dialogRun c4Start t).sitesLoaded == 250) &&
      ((dialogRun c4Start t).finishCalls == ["imp"]) &&
      ((dialogRun c4Start t).closeCalls == 0) &&
      ((dialogRun c4Start t).finishPending == true) &&
      ((dialogRun c4Start (t ++ [DialogEvent.finishSuccess])).finishCalls == ["imp"]) &&
      ((dialogRun c4Start (t ++ [DialogEvent.finishSuccess])).closeCalls == 1) &&
      ((dialogRun c4Start (t ++ [DialogEvent.finishSuccess])).cancelCalls ==
        ([] : List String))) = true := by
  decide

/-- C5: counterexample to the claim as stated. A session of two pages in
which both dispatched fetches fail (an accurately-reported run of the
model) invokes the cancellation entry point twice, not exactly once. -/
theorem claim_C5_counterexample :
    accurateRun (fun _ => 100) (dialogInit "imp" [stmtA, stmtB] 200)
      [DialogEvent.fetchFailure 0, DialogEvent.fetchFailure 0] = true ∧
    1 ≤ (dialogRun (dialogInit "imp" [stmtA, stmtB] 200)
        [DialogEvent.fetchFailure 0, DialogEvent.fetchFailure 0]).failuresSeen ∧
    (dialogRun (dialogInit "imp" [stmtA, stmtB] 200)
        [DialogEvent.fetchFailure 0, DialogEvent.fetchFailure 0]).cancelCalls =
      ["imp", "imp"] ∧
    (dialogRun (dialogInit "imp" [stmtA, stmtB] 200)
        [DialogEvent.fetchFailure 0, DialogEvent.fetchFailure 0]).cancelCalls.length ≠ 1 := by
  refine ⟨by decide, by decide, by decide, by decide⟩

/-- C5 (amended): for every session (accurately-reported events, pages
with positive true counts summing to the expected total), the
destination-cleanup entry point `cancelSitesImport` is invoked exactly
once per failed fetch — not exactly once per session, as the
counterexample with two failures shows — and once some fetch has failed:
the session is marked failed (`importActive = false`), the pending-page
queue is cleared, `close()` has not been called and is never called
afterwards, and the dispatch log — always a prefix of the planner's page
list, so no page is ever dispatched twice — is frozen: no fetch for any
remaining queued page is ever issued. -/
theorem claim_C5 (cnt : Statement → Nat) (S : List Statement) (total : Nat)
    (id : String) (events : List DialogEvent)
    (hpos : ∀ p ∈ S, 0 < cnt p) (htot : 0 < total)
    (hsum : cntSum cnt S = total)
    (hacc : accurateRun cnt (dialogInit id S total) events = true) :
    (dialogRun (dialogInit id S total) events).cancelCalls.length =
      (dialogRun (dialogInit id S total) events).failuresSeen ∧
    (1 ≤ (dialogRun (dialogInit id S total) events).failuresSeen →
      (dialogRun (dialogInit id S total) events).importActive = false ∧
      (dialogRun (dialogInit id S total) events).statementQueue = [] ∧
      (dialogRun (dialogInit id S total) events).closeCalls = 0 ∧
      (∃ k, (dialogRun (dialogInit id S total) events).dispatched = S.take k) ∧
      (∀ more : List DialogEvent,
        (dialogRun (dialogRun (dialogInit id S total) events) more).dispatched =
          (dialogRun (dialogInit id S total) events).dispatched ∧
        (accurateRun cnt (dialogRun (dialogInit id S total) events) more = true →
          (dialogRun (dialogRun (dialogInit id S total) events) more).closeCalls = 0))) := by
  have inv0 := dialogInit_AccInv cnt S total id hpos htot hsum
  have inv := dialogRun_AccInv cnt S total hpos events _ inv0 hacc
  refine ⟨inv.cancel, ?_⟩
  intro hf
  obtain ⟨hia, hq, hfp, hcc, _⟩ := inv.fail1 hf
  refine ⟨hia, hq, hcc, inv.disp, ?_⟩
  intro more
  constructor
  · exact (dialogRun_frozen more _ hq).2
  · intro hacc2
    have inv2 := dialogRun_AccInv cnt S total hpos more _ inv hacc2
    have hf2 : 1 ≤ (dialogRun (dialogRun (dialogInit id S total) events) more).failuresSeen :=
      Nat.le_trans hf (dialogRun_failures_mono more _)
    exact (inv2.fail1 hf2).2.2.2.1

/-- C5 witness: the amended claim evaluated at a one-page session whose
fetch fails: one cancellation, inactive session, cleared queue, no
close, frozen dispatch log. -/
theorem claim_C5_witness :
    (dialogRun (dialogInit "imp" [stmtA] 100)
        [DialogEvent.fetchFailure 0]).cancelCalls.length =
      (dialogRun (dialogInit "imp" [stmtA] 100)
        [DialogEvent.fetchFailure 0]).failuresSeen ∧
    (dialogRun (dialogInit "imp" [stmtA] 100)
      [DialogEvent.fetchFailure 0]).importActive = false ∧
    (dialogRun (dialogInit "imp" [stmtA] 100)
      [DialogEvent.fetchFailure 0]).closeCalls = 0 := by
  have h := claim_C5 (fun _ => 100) [stmtA] 100 "imp" [DialogEvent.fetchFailure 0]
    (by decide) (by omega) (by decide) (by decide)
  have h2 := h.2 (by decide)
  exact ⟨h.1, h2.1, h2.2.2.1⟩

/-- C9: the one-second tick callback `updateProgress` is a no-op once
the session has left the active state: whenever the import is no longer
active, or the total is unset or zero, invoking the tick changes nothing
— no elapsed-time increment, no rendering — so an in-flight timer cannot
resurrect a finished or cancelled session, and repeated invocations in
such a state are idempotent. -/
theorem claim_C9 (s : DialogState)
    (h : s.importActive = false ∨ s.totalResults = 0) :
    updateProgress s = s ∧
      updateProgress (updateProgress s) = updateProgress s := by
  have h1 : updateProgress s = s := by
    rw [updateProgress, if_pos h]
  rw [h1]
  exact ⟨rfl, h1⟩

/-- C9 witness: the tick is a no-op on the state of a cancelled
session. -/
theorem claim_C9_witness :
    updateProgress (onErrorLoadingSites (dialogInit "imp" [stmtA] 100)) =
      onErrorLoadingSites (dialogInit "imp" [stmtA] 100) :=
  (claim_C9 (onErrorLoadingSites (dialogInit "imp" [stmtA] 100))
    (Or.inl (by decide))).1

end GamSites
